import Mathlib

/-!
Verification of `containers/mongo-init.js`, the MongoDB initialisation script
of the archetype.

The script is four statements long:

```
db = db.getSiblingDB('archetype');
db.createCollection('pokemon', { validator: { $jsonSchema: ... } });
db.pokemons.createIndex({ name: 1 }, { unique: true });
print('MongoDB initialization completed for Archetype database');
```

The development has two layers.

* The *script layer* is translated from the source: the schema literal
  (`pokemonSchema`), the index literal (`nameIndex`), the names of the database
  and of the two collections, the completion message, and the statement
  sequence (`mongoInit`).
* The *engine layer* is the database engine and the shell the script talks to.
  Their code is not part of the repository; each of their definitions says so
  in its doc comment and follows the behaviour the specification and the
  engine's documentation give for it.
-/

namespace MongoInit

/-! ## BSON values -/

/-- Modelled from the spec: the engine's data model is not in the repository.
The BSON types a value can have. -/
inductive BsonType where
  | double | string | object | array | binData | objectId | bool | date
  | null | regex | int | timestamp | long | decimal
  deriving DecidableEq, Repr

/-- Modelled from the spec: the values of the engine's data model. Floating point and decimal payloads are kept as raw bits: only
the type of such a value is ever inspected. -/
inductive BsonValue where
  | double (bits : Nat)
  | string (s : String)
  | document (fields : List (String × BsonValue))
  | array (elems : List BsonValue)
  | binData (bytes : List Nat)
  | objectId (oid : Nat)
  | bool (b : Bool)
  | date (millis : Int)
  | null
  | regex (pattern : String)
  | int (n : Int)
  | timestamp (t : Nat)
  | long (n : Int)
  | decimal (bits : Nat)

/-- Modelled from the spec: a document is an ordered list of named fields. -/
abbrev Document := List (String × BsonValue)

/-- Modelled from the spec: the BSON type of a value. -/
def BsonValue.bsonType : BsonValue → BsonType
  | .double _ => .double
  | .string _ => .string
  | .document _ => .object
  | .array _ => .array
  | .binData _ => .binData
  | .objectId _ => .objectId
  | .bool _ => .bool
  | .date _ => .date
  | .null => .null
  | .regex _ => .regex
  | .int _ => .int
  | .timestamp _ => .timestamp
  | .long _ => .long
  | .decimal _ => .decimal

/-- Modelled from the spec: the value of field `k` of a document, if the
document has the field. -/
def lookupField (k : String) : Document → Option BsonValue
  | [] => none
  | (k', v) :: rest => if k' = k then some v else lookupField k rest

mutual
/-- Modelled from the spec: structural equality of BSON values. -/
def BsonValue.beq : BsonValue → BsonValue → Bool
  | .double a, .double b => a == b
  | .string a, .string b => a == b
  | .document a, .document b => fieldsBeq a b
  | .array a, .array b => elemsBeq a b
  | .binData a, .binData b => a == b
  | .objectId a, .objectId b => a == b
  | .bool a, .bool b => a == b
  | .date a, .date b => a == b
  | .null, .null => true
  | .regex a, .regex b => a == b
  | .int a, .int b => a == b
  | .timestamp a, .timestamp b => a == b
  | .long a, .long b => a == b
  | .decimal a, .decimal b => a == b
  | _, _ => false
/-- Modelled from the spec: structural equality of field lists. -/
def fieldsBeq : List (String × BsonValue) → List (String × BsonValue) → Bool
  | [], [] => true
  | (k, v) :: as, (k', v') :: bs => k == k' && v.beq v' && fieldsBeq as bs
  | _, _ => false
/-- Modelled from the spec: structural equality of element lists. -/
def elemsBeq : List BsonValue → List BsonValue → Bool
  | [], [] => true
  | v :: as, v' :: bs => v.beq v' && elemsBeq as bs
  | _, _ => false
end

/-! ## `$jsonSchema` -/

/-- A `$jsonSchema` object with the keywords the script uses: `bsonType`,
`required`, `properties`, `items` and `description`. An absent `required` or
`properties` keyword is the empty list. -/
inductive JsonSchema where
  | mk (bsonType : Option String) (required : List String)
       (properties : List (String × JsonSchema)) (items : Option JsonSchema)
       (description : Option String)

/-- The `required` keyword of a schema. -/
def JsonSchema.required : JsonSchema → List String
  | .mk _ req _ _ _ => req

/-- The `properties` keyword of a schema. -/
def JsonSchema.properties : JsonSchema → List (String × JsonSchema)
  | .mk _ _ props _ _ => props

/-- The validator literal of the script (source lines 7 to 21):
```
$jsonSchema: {
  bsonType: 'object',
  required: ['name'],
  properties: {
    name:  { bsonType: 'string', description: 'Pokemon name - required' },
    types: { bsonType: 'array', items: { bsonType: 'string' },
             description: 'Pokemon types' }
  }
}
``` -/
def pokemonSchema : JsonSchema :=
  .mk (some "object") ["name"]
    [ ("name", .mk (some "string") [] [] none (some "Pokemon name - required")),
      ("types", .mk (some "array") [] [] (some (.mk (some "string") [] [] none none))
                  (some "Pokemon types")) ]
    none none

/-- Modelled from the spec: the engine's table of `bsonType` aliases is not in
the repository. The BSON types a type alias stands for; `"number"` stands for
the four numeric types; an unknown alias stands for nothing. -/
def typesOfAlias : String → Option (List BsonType)
  | "double" => some [.double]
  | "string" => some [.string]
  | "object" => some [.object]
  | "array" => some [.array]
  | "binData" => some [.binData]
  | "objectId" => some [.objectId]
  | "bool" => some [.bool]
  | "date" => some [.date]
  | "null" => some [.null]
  | "regex" => some [.regex]
  | "int" => some [.int]
  | "timestamp" => some [.timestamp]
  | "long" => some [.long]
  | "decimal" => some [.decimal]
  | "number" => some [.double, .int, .long, .decimal]
  | _ => none

/-- Modelled from the spec: the engine's check of the `bsonType` keyword. -/
def typeMatches (typeAlias : String) (v : BsonValue) : Bool :=
  match typesOfAlias typeAlias with
  | some ts => ts.contains v.bsonType
  | none => false

mutual
/-- Modelled from the spec: the engine's `$jsonSchema` evaluator is not in the
repository ("a validator that rejects documents missing `requiredFields` or
mismatching `fieldTypes`"). A value satisfies a schema when it satisfies every
keyword of it: `bsonType` constrains the type of the value, `required` and
`properties` constrain objects only, `items` constrains arrays only, and
`description` constrains nothing. Fields that `properties` does not list are
unconstrained. -/
def JsonSchema.accepts : JsonSchema → BsonValue → Bool
  | .mk bt req props items _, v =>
    (match bt with
     | none => true
     | some a => typeMatches a v) &&
    (match v with
     | .document fs => req.all (fun k => (lookupField k fs).isSome)
     | _ => true) &&
    propertiesAccept props v &&
    (match items, v with
     | some s, .array es => es.all (fun e => s.accepts e)
     | _, _ => true)
/-- Modelled from the spec: the `properties` keyword of the evaluator: every
listed field that the object has must satisfy the schema given for it. -/
def propertiesAccept : List (String × JsonSchema) → BsonValue → Bool
  | [], _ => true
  | (k, s) :: rest, v =>
    (match v with
     | .document fs =>
       (match lookupField k fs with
        | none => true
        | some x => s.accepts x)
     | _ => true) &&
    propertiesAccept rest v
end

mutual
/-- Modelled from the spec: the engine refuses a schema that names an unknown
type alias. -/
def JsonSchema.wellFormed : JsonSchema → Bool
  | .mk bt _ props items _ =>
    (match bt with
     | none => true
     | some a => (typesOfAlias a).isSome) &&
    propertiesWellFormed props &&
    (match items with
     | none => true
     | some s => s.wellFormed)
/-- Modelled from the spec: well-formedness of every schema under `properties`. -/
def propertiesWellFormed : List (String × JsonSchema) → Bool
  | [] => true
  | (_, s) :: rest => s.wellFormed && propertiesWellFormed rest
end

/-! ## The engine: collections, indexes, documents -/

/-- The specification's `IndexSpec`: the indexed fields with their sort
directions, in order, and the `unique` option. -/
structure IndexSpec where
  key : List (String × Int)
  unique : Bool
  deriving DecidableEq, Repr

/-- The index literal of the script (source line 26):
`createIndex({ name: 1 }, { unique: true })`. -/
def nameIndex : IndexSpec := ⟨[("name", 1)], true⟩

/-- Modelled from the spec: the engine gives every collection a unique index on
`_id` when the collection comes into being. -/
def idIndex : IndexSpec := ⟨[("_id", 1)], true⟩

/-- Modelled from the spec: a collection as the engine stores it. A collection
lives in one database and has an optional validator, its indexes and its
documents. -/
structure Collection where
  db : String
  name : String
  validator : Option JsonSchema
  indexes : List IndexSpec
  docs : List Document

/-- Modelled from the spec: the state of the engine: all collections of all
databases, and the counter from which object ids are generated. A database
exists exactly when it has a collection. -/
structure Server where
  collections : List Collection
  nextOid : Nat

/-- Modelled from the spec: the errors of administrative commands ("collection/
index already exists") and of insertion. -/
inductive MongoError where
  | namespaceExists
  | failedToParse
  | indexOptionsConflict
  | duplicateKey
  | documentValidationFailure
  deriving DecidableEq, Repr

/-- Modelled from the spec: whether a collection is the one named `name` in
database `db`. -/
def Collection.isNamed (db name : String) (c : Collection) : Bool :=
  c.db == db && c.name == name

/-- Modelled from the spec: the collection `name` of database `db`, if it
exists. -/
def Server.findCollection (db name : String) (s : Server) : Option Collection :=
  s.collections.find? (Collection.isNamed db name)

/-- Modelled from the spec: a collection as implicit creation makes it: no
validator, the `_id` index, no documents. -/
def Collection.implicit (db name : String) : Collection :=
  ⟨db, name, none, [idIndex], []⟩

/-- Modelled from the spec: implicit creation: the engine brings a collection
into being when a command addresses one that does not exist. -/
def Server.ensureCollection (db name : String) (s : Server) : Server :=
  match s.findCollection db name with
  | some _ => s
  | none => { s with collections := s.collections ++ [Collection.implicit db name] }

/-- Modelled from the spec: store `c` in place of the collection of the same
name and database. -/
def Server.replaceCollection (c : Collection) (s : Server) : Server :=
  { s with collections :=
      s.collections.map (fun c' => if c'.isNamed c.db c.name then c else c') }

/-- Modelled from the spec: "a database-engine-enforced predicate that incoming
documents must satisfy". A collection without validator admits every
document. -/
def Collection.admits (c : Collection) (doc : Document) : Bool :=
  match c.validator with
  | none => true
  | some v => v.accepts (.document doc)

/-- Modelled from the spec: the key of a document in an index: the values of the
indexed fields, a missing field counting as null. Array values are compared
whole and numbers are compared within their own type. -/
def indexKey (ix : IndexSpec) (doc : Document) : List BsonValue :=
  ix.key.map (fun f => (lookupField f.1 doc).getD .null)

/-- Modelled from the spec: whether some document of the list has the index key
`k`. -/
def keyTaken (ix : IndexSpec) (k : List BsonValue) (docs : List Document) : Bool :=
  docs.any (fun d => elemsBeq (indexKey ix d) k)

/-- Modelled from the spec: whether two documents of the list share an index
key. -/
def hasDuplicateKey (ix : IndexSpec) : List Document → Bool
  | [] => false
  | d :: rest => keyTaken ix (indexKey ix d) rest || hasDuplicateKey ix rest

/-- Modelled from the spec: the engine's `createCollectionWithValidator(name,
schema)`. The collection is created when absent; "if the collection already
exists, this ... fails with `AlreadyExistsError`" and the state is unchanged. -/
def Server.createCollection (db name : String) (validator : Option JsonSchema)
    (s : Server) : Except MongoError Server :=
  if (match validator with
      | none => true
      | some v => v.wellFormed) then
    match s.findCollection db name with
    | some _ => .error .namespaceExists
    | none => .ok { s with collections := s.collections ++ [⟨db, name, validator, [idIndex], []⟩] }
  else .error .failedToParse

/-- Modelled from the spec: the engine's `createIndex(collection, keys,
options)`: "creates the index if absent; is a no-op if an equivalent index
already exists". A collection that does not exist is created implicitly,
without validator. An index on the same key with another `unique` option is a
conflict, and a unique index cannot be built over duplicate keys. -/
def Server.createIndex (db coll : String) (spec : IndexSpec) (s : Server) :
    Except MongoError Server :=
  let s' := s.ensureCollection db coll
  let c := (s.findCollection db coll).getD (Collection.implicit db coll)
  match c.indexes.find? (fun i => i.key == spec.key) with
  | some i =>
    if i.unique == spec.unique then .ok s'
    else .error .indexOptionsConflict
  | none =>
    if spec.unique && hasDuplicateKey spec c.docs then .error .duplicateKey
    else .ok (s'.replaceCollection { c with indexes := c.indexes ++ [spec] })

/-- Modelled from the spec: insertion of one document. A document without `_id`
gets a generated object id; the collection is created implicitly when absent;
the validator is consulted; then "the index ... enforces uniqueness: inserting
two documents with the same value for that field fails". -/
def Server.insertOne (db coll : String) (doc : Document) (s : Server) :
    Except MongoError Server :=
  let doc' := match lookupField "_id" doc with
    | some _ => doc
    | none => ("_id", BsonValue.objectId s.nextOid) :: doc
  let s' := match lookupField "_id" doc with
    | some _ => s.ensureCollection db coll
    | none => { s.ensureCollection db coll with nextOid := s.nextOid + 1 }
  let c := (s.findCollection db coll).getD (Collection.implicit db coll)
  if c.admits doc' then
    if c.indexes.any (fun i => i.unique && keyTaken i (indexKey i doc') c.docs) then
      .error .duplicateKey
    else .ok (s'.replaceCollection { c with docs := c.docs ++ [doc'] })
  else .error .documentValidationFailure

/-! ## The shell and the script -/

/-- An administrative command as the script issues it: its name and its
arguments. -/
inductive AdminCommand where
  | createCollection (name : String) (validator : Option JsonSchema)
  | createIndex (coll : String) (spec : IndexSpec)

/-- What a run does, in order: administrative commands sent to a database, and
lines written to standard output. -/
inductive Event where
  | command (db : String) (cmd : AdminCommand)
  | output (line : String)

/-- Modelled from the spec: the shell is not in the repository. The state of the
shell that runs the script: the database the variable `db`
denotes, the engine the shell is connected to, and the events so far. -/
structure Shell where
  db : String
  server : Server
  events : List Event

/-- Modelled from the spec: the result of running statements: the shell afterwards, and the error that
stopped the run, if one did. -/
structure Outcome where
  shell : Shell
  error : Option MongoError

/-- The lines on standard output, oldest first. -/
def stdout (events : List Event) : List String :=
  events.filterMap (fun e =>
    match e with
    | .output line => some line
    | .command _ _ => none)

/-- Modelled from the spec: the shell's `getSiblingDB`, as the statement
`db = db.getSiblingDB(name)` uses it: from now on `db` denotes the database
`name`. Nothing is sent to the engine. -/
def Shell.getSiblingDB (name : String) (sh : Shell) : Shell :=
  { sh with db := name }

/-- Modelled from the spec: the shell's `db.createCollection(name, { validator:
{ $jsonSchema: v } })`: the command goes to the database `db` denotes, and a
command that fails is raised as an exception. -/
def Shell.createCollection (name : String) (validator : Option JsonSchema)
    (sh : Shell) : Outcome :=
  let sh' := { sh with events := sh.events ++ [.command sh.db (.createCollection name validator)] }
  match sh.server.createCollection sh.db name validator with
  | .ok srv => ⟨{ sh' with server := srv }, none⟩
  | .error e => ⟨sh', some e⟩

/-- Modelled from the spec: the shell's `db.<coll>.createIndex(keys, options)`:
the command goes to the collection `coll` of the database `db` denotes, and a
command that fails is raised as an exception. -/
def Shell.createIndex (coll : String) (spec : IndexSpec) (sh : Shell) : Outcome :=
  let sh' := { sh with events := sh.events ++ [.command sh.db (.createIndex coll spec)] }
  match sh.server.createIndex sh.db coll spec with
  | .ok srv => ⟨{ sh' with server := srv }, none⟩
  | .error e => ⟨sh', some e⟩

/-- Modelled from the spec: the shell's `print(line)`: one line on standard
output. -/
def Shell.print (line : String) (sh : Shell) : Shell :=
  { sh with events := sh.events ++ [.output line] }

/-- The message of the last statement of the script. -/
def completionMessage : String :=
  "MongoDB initialization completed for Archetype database"

/-- The script, statement by statement. It has no `try`, so an exception raised
by a statement ends the run there, with the statements before it done and
those after it not.
```
db = db.getSiblingDB('archetype');
db.createCollection('pokemon', { validator: { $jsonSchema: ... } });
db.pokemons.createIndex({ name: 1 }, { unique: true });
print('MongoDB initialization completed for Archetype database');
``` -/
def mongoInit (sh : Shell) : Outcome :=
  let sh1 := sh.getSiblingDB "archetype"
  match sh1.createCollection "pokemon" (some pokemonSchema) with
  | ⟨sh2, some e⟩ => ⟨sh2, some e⟩
  | ⟨sh2, none⟩ =>
    match sh2.createIndex "pokemons" nameIndex with
    | ⟨sh3, some e⟩ => ⟨sh3, some e⟩
    | ⟨sh3, none⟩ => ⟨sh3.print completionMessage, none⟩

/-- A shell connected to an engine without any collection, with `db` denoting
the database `test`. -/
def freshShell : Shell := ⟨"test", ⟨[], 0⟩, []⟩

/-- A database is fresh for the script when the database `archetype` has no
collection. -/
def Fresh (sh : Shell) : Prop :=
  ∀ c ∈ sh.server.collections, c.db ≠ "archetype"

/-- The schema and index state of the engine: for each collection its database,
its name, its validator and its indexes. -/
def schemaState (s : Server) : List (String × String × Option JsonSchema × List IndexSpec) :=
  s.collections.map (fun c => (c.db, c.name, c.validator, c.indexes))

/-- The collections of one database. -/
def Server.collectionsOf (db : String) (s : Server) : List Collection :=
  s.collections.filter (fun c => c.db == db)

/-- A short description of a collection: name, whether it has a validator, its
indexes, and how many documents it holds. -/
def Collection.summary (c : Collection) : String × Bool × List IndexSpec × Nat :=
  (c.name, c.validator.isSome, c.indexes, c.docs.length)

/-- A value is a string. -/
def IsString (v : BsonValue) : Prop := ∃ s, v = .string s

/-- A value is an array whose items are all strings. -/
def IsStringArray (v : BsonValue) : Prop :=
  ∃ es, v = .array es ∧ ∀ e ∈ es, IsString e

/-- The event of the second statement of the script: the command
`createCollection('pokemon', ...)` sent to the database `db` denotes there. -/
def createCollectionEvent : Event :=
  .command "archetype" (.createCollection "pokemon" (some pokemonSchema))

/-- The event of the third statement of the script: the command
`createIndex({ name: 1 }, { unique: true })` sent to `db.pokemons`. -/
def createIndexEvent : Event :=
  .command "archetype" (.createIndex "pokemons" nameIndex)

/-- The database an event addresses, when the event is a command. -/
def Event.target : Event → Option String
  | .command db _ => some db
  | .output _ => none

/-- The collection an event addresses, when the event is a command. -/
def Event.collection : Event → Option String
  | .command _ (.createCollection name _) => some name
  | .command _ (.createIndex coll _) => some coll
  | .output _ => none

/-- The collection the second statement creates, as the engine stores it. -/
def pokemonCollection : Collection :=
  ⟨"archetype", "pokemon", some pokemonSchema, [idIndex], []⟩

/-- The collection the third statement brings into being on a fresh database,
as the engine stores it. -/
def pokemonsCollection : Collection :=
  ⟨"archetype", "pokemons", none, [idIndex, nameIndex], []⟩

/-- Insertion of two documents, one after the other, into one collection. -/
def insertTwice (db coll : String) (d1 d2 : Document) (s : Server) : Except MongoError Server :=
  match s.insertOne db coll d1 with
  | .ok s1 => s1.insertOne db coll d2
  | .error e => .error e

/-- How many documents a collection holds, when the insertions went through. -/
def storedCount (db coll : String) (r : Except MongoError Server) : Except MongoError Nat :=
  match r with
  | .ok s => .ok (((s.findCollection db coll).map (fun c => c.docs.length)).getD 0)
  | .error e => .error e

/-- A document with a string `name` and nothing else. -/
def pikachu : Document := [("name", .string "pikachu")]

/-- The events a run adds to those of the shell it starts from. -/
def newEvents (before : Shell) (after : Outcome) : List Event :=
  after.shell.events.drop before.events.length

/-- A shell whose `db` denotes the database `admin`, connected to an engine that
holds one collection, `admin.users`, with one document. -/
def adminShell : Shell :=
  ⟨"admin", ⟨[⟨"admin", "users", none, [idIndex], [[("_id", .int 1)]]⟩], 0⟩, []⟩

/-! ## The validator on arbitrary documents -/

theorem accepts_nameSchema (d : Option String) (v : BsonValue) :
    (JsonSchema.mk (some "string") [] [] none d).accepts v = true ↔ IsString v := by
  cases v <;> simp [JsonSchema.accepts, propertiesAccept, typeMatches, typesOfAlias,
    BsonValue.bsonType, IsString]

theorem accepts_typesSchema (d : Option String) (v : BsonValue) :
    (JsonSchema.mk (some "array") [] [] (some (.mk (some "string") [] [] none none)) d).accepts v
      = true ↔ IsStringArray v := by
  have hn := accepts_nameSchema none
  cases v <;> simp [JsonSchema.accepts, propertiesAccept, typeMatches, typesOfAlias,
    BsonValue.bsonType, IsStringArray]
  rename_i es
  constructor
  · intro h e he
    refine (hn e).1 ?_
    have := h e he
    simp [JsonSchema.accepts, propertiesAccept, typeMatches, typesOfAlias]
    exact this
  · intro h e he
    have := (hn e).2 (h e he)
    simp [JsonSchema.accepts, propertiesAccept, typeMatches, typesOfAlias] at this
    exact this

theorem accepts_object_two (req : List String) (k1 k2 : String) (s1 s2 : JsonSchema)
    (d : Option String) (doc : Document) :
    (JsonSchema.mk (some "object") req [(k1, s1), (k2, s2)] none d).accepts (.document doc) =
      (req.all (fun k => (lookupField k doc).isSome) &&
        (match lookupField k1 doc with
         | none => true
         | some x => s1.accepts x) &&
        (match lookupField k2 doc with
         | none => true
         | some x => s2.accepts x)) := by
  simp [JsonSchema.accepts, propertiesAccept, typeMatches, typesOfAlias, BsonValue.bsonType,
    Bool.and_assoc]

/-- The script's schema accepts exactly the documents with a string `name`
whose `types`, when present, is an array of strings. -/
theorem accepts_pokemonSchema (doc : Document) :
    pokemonSchema.accepts (.document doc) = true ↔
      (∃ v, lookupField "name" doc = some v ∧ IsString v) ∧
      (∀ v, lookupField "types" doc = some v → IsStringArray v) := by
  have hn := accepts_nameSchema (some "Pokemon name - required")
  have ht := accepts_typesSchema (some "Pokemon types")
  unfold pokemonSchema
  rw [accepts_object_two]
  cases h1 : lookupField "name" doc with
  | none => simp [h1]
  | some v =>
    cases h2 : lookupField "types" doc with
    | none => simp [h1, hn]
    | some w => simp [h1, hn, ht]

/-! ## The script, statement by statement -/

theorem mongoInit_eq (sh : Shell) :
    mongoInit sh =
      match sh.server.createCollection "archetype" "pokemon" (some pokemonSchema) with
      | .error e => ⟨⟨"archetype", sh.server, sh.events ++ [createCollectionEvent]⟩, some e⟩
      | .ok s1 =>
        match s1.createIndex "archetype" "pokemons" nameIndex with
        | .error e =>
          ⟨⟨"archetype", s1, sh.events ++ [createCollectionEvent, createIndexEvent]⟩, some e⟩
        | .ok s2 =>
          ⟨⟨"archetype", s2,
            sh.events ++ [createCollectionEvent, createIndexEvent, .output completionMessage]⟩,
            none⟩ := by
  unfold mongoInit Shell.createCollection Shell.getSiblingDB
  cases h1 : sh.server.createCollection "archetype" "pokemon" (some pokemonSchema) with
  | error e => simp [h1, createCollectionEvent]
  | ok s1 =>
    simp only [Shell.createIndex, h1]
    cases h2 : s1.createIndex "archetype" "pokemons" nameIndex with
    | error e => simp [h2, createCollectionEvent, createIndexEvent]
    | ok s2 => simp [h2, createCollectionEvent, createIndexEvent, Shell.print]

theorem pokemonSchema_wellFormed : pokemonSchema.wellFormed = true := by decide

theorem createCollection_pokemon (s : Server) :
    s.createCollection "archetype" "pokemon" (some pokemonSchema) =
      match s.findCollection "archetype" "pokemon" with
      | some _ => .error .namespaceExists
      | none => .ok ⟨s.collections ++ [pokemonCollection], s.nextOid⟩ := by
  simp [Server.createCollection, pokemonSchema_wellFormed, pokemonCollection]

/-! ## The engine's commands on arbitrary states -/

theorem isNamed_iff (db name : String) (c : Collection) :
    c.isNamed db name = true ↔ c.db = db ∧ c.name = name := by
  simp [Collection.isNamed]

theorem findCollection_isNamed {db name : String} {s : Server} {c : Collection}
    (h : s.findCollection db name = some c) : c.db = db ∧ c.name = name :=
  (isNamed_iff db name c).1 (List.find?_some h)

theorem find_append_other (db name : String) (cs : List Collection) (c : Collection)
    (h : c.isNamed db name = false) :
    (cs ++ [c]).find? (Collection.isNamed db name) = cs.find? (Collection.isNamed db name) := by
  induction cs with
  | nil => simp [List.find?, h]
  | cons x xs ih =>
    simp only [List.cons_append, List.find?_cons]
    cases Collection.isNamed db name x <;> simp [ih]

theorem find_append_new (db name : String) (cs : List Collection) (c : Collection)
    (hc : c.isNamed db name = true)
    (h : cs.find? (Collection.isNamed db name) = none) :
    (cs ++ [c]).find? (Collection.isNamed db name) = some c := by
  induction cs with
  | nil => simp [List.find?, hc]
  | cons x xs ih =>
    simp only [List.find?_cons] at h
    simp only [List.cons_append, List.find?_cons]
    cases hx : Collection.isNamed db name x with
    | true => simp [hx] at h
    | false =>
      simp only [hx] at h
      simpa using ih h

theorem find_map_other (db name : String) (cs : List Collection) (c : Collection)
    (h : c.isNamed db name = false) :
    (cs.map (fun c' => if c'.isNamed c.db c.name then c else c')).find?
        (Collection.isNamed db name) = cs.find? (Collection.isNamed db name) := by
  induction cs with
  | nil => rfl
  | cons x xs ih =>
    simp only [List.map_cons, List.find?_cons]
    by_cases hx : x.isNamed c.db c.name = true
    · have hx' : x.isNamed db name = false := by
        have h1 := (isNamed_iff _ _ _).1 hx
        cases hn : x.isNamed db name with
        | false => rfl
        | true =>
          have h2 := (isNamed_iff _ _ _).1 hn
          have : c.isNamed db name = true :=
            (isNamed_iff _ _ _).2 ⟨h1.1 ▸ h2.1, h1.2 ▸ h2.2⟩
          simp [h] at this
      simp [hx, hx', h, ih]
    · simp only [hx]
      cases hn : Collection.isNamed db name x <;> simp [ih, hn]

theorem findCollection_ensure_other (db name db' name' : String) (s : Server)
    (h : ¬ (db' = db ∧ name' = name)) :
    (s.ensureCollection db' name').findCollection db name = s.findCollection db name := by
  unfold Server.ensureCollection
  cases s.findCollection db' name' with
  | some _ => rfl
  | none =>
    simp only [Server.findCollection]
    apply find_append_other
    cases hn : (Collection.implicit db' name').isNamed db name with
    | false => rfl
    | true => exact absurd ((isNamed_iff _ _ _).1 hn) h

theorem findCollection_replace_other (db name : String) (c : Collection) (s : Server)
    (h : c.isNamed db name = false) :
    (s.replaceCollection c).findCollection db name = s.findCollection db name := by
  simp only [Server.findCollection, Server.replaceCollection]
  exact find_map_other db name s.collections c h

theorem target_named (db name : String) (s : Server) :
    ((s.findCollection db name).getD (Collection.implicit db name)).db = db ∧
      ((s.findCollection db name).getD (Collection.implicit db name)).name = name := by
  cases h : s.findCollection db name with
  | none => exact ⟨rfl, rfl⟩
  | some c => exact findCollection_isNamed h

theorem not_isNamed_of_ne {db name db' name' : String} {c : Collection}
    (hc : c.db = db' ∧ c.name = name') (h : ¬ (db' = db ∧ name' = name)) :
    c.isNamed db name = false := by
  cases hn : c.isNamed db name with
  | false => rfl
  | true =>
    have h2 := (isNamed_iff _ _ _).1 hn
    exact absurd ⟨hc.1 ▸ h2.1, hc.2 ▸ h2.2⟩ h

/-- A successful `createIndex` leaves every other collection as it finds it. -/
theorem createIndex_find_other (db name db' coll : String) (spec : IndexSpec) (s s' : Server)
    (h : ¬ (db' = db ∧ coll = name)) (hok : s.createIndex db' coll spec = .ok s') :
    s'.findCollection db name = s.findCollection db name := by
  have hc := target_named db' coll s
  unfold Server.createIndex at hok
  simp only at hok
  split at hok
  · split at hok
    · cases hok
      exact findCollection_ensure_other db name db' coll s h
    · cases hok
  · split at hok
    · cases hok
    · cases hok
      rw [findCollection_replace_other, findCollection_ensure_other db name db' coll s h]
      exact not_isNamed_of_ne (c := { (s.findCollection db' coll).getD (Collection.implicit db' coll) with
        indexes := _ }) hc h

theorem filter_append_other (n : String) (cs : List Collection) (c : Collection)
    (h : c.db ≠ n) :
    (cs ++ [c]).filter (fun c => c.db == n) = cs.filter (fun c => c.db == n) := by
  have hb : (c.db == n) = false := by simpa using h
  simp [List.filter_append, List.filter, hb]

theorem filter_map_other (n : String) (cs : List Collection) (c : Collection)
    (h : c.db ≠ n) :
    (cs.map (fun c' => if c'.isNamed c.db c.name then c else c')).filter (fun c => c.db == n) =
      cs.filter (fun c => c.db == n) := by
  induction cs with
  | nil => rfl
  | cons x xs ih =>
    simp only [List.map_cons, List.filter_cons]
    by_cases hx : x.isNamed c.db c.name = true
    · have h1 := (isNamed_iff _ _ _).1 hx
      have hxn : x.db ≠ n := h1.1 ▸ h
      simp [hx, h, hxn, ih]
    · simp only [hx]
      cases hn : (x.db == n) <;> simp [ih, hn]

theorem collectionsOf_ensure (n db name : String) (s : Server) (h : db ≠ n) :
    (s.ensureCollection db name).collectionsOf n = s.collectionsOf n := by
  unfold Server.ensureCollection
  cases s.findCollection db name with
  | some _ => rfl
  | none => exact filter_append_other n s.collections _ h

theorem collectionsOf_replace (n : String) (c : Collection) (s : Server) (h : c.db ≠ n) :
    (s.replaceCollection c).collectionsOf n = s.collectionsOf n :=
  filter_map_other n s.collections c h

/-- A successful `createIndex` on a collection of one database leaves the
collections of every other database as they are. -/
theorem createIndex_frame (n db coll : String) (spec : IndexSpec) (s s' : Server)
    (h : db ≠ n) (hok : s.createIndex db coll spec = .ok s') :
    s'.collectionsOf n = s.collectionsOf n := by
  have hc := target_named db coll s
  unfold Server.createIndex at hok
  simp only at hok
  split at hok
  · split at hok
    · cases hok
      exact collectionsOf_ensure n db coll s h
    · cases hok
  · split at hok
    · cases hok
    · cases hok
      rw [collectionsOf_replace, collectionsOf_ensure n db coll s h]
      show ((s.findCollection db coll).getD (Collection.implicit db coll)).db ≠ n
      rw [hc.1]
      exact h

/-- A successful `createCollection` in one database leaves the collections of
every other database as they are. -/
theorem createCollection_frame (n db name : String) (v : Option JsonSchema) (s s' : Server)
    (h : db ≠ n) (hok : s.createCollection db name v = .ok s') :
    s'.collectionsOf n = s.collectionsOf n := by
  unfold Server.createCollection at hok
  split at hok
  · split at hok
    · cases hok
    · cases hok
      exact filter_append_other n s.collections _ h
  · cases hok

/-! ## Runs of the script -/

/-- When `archetype.pokemon` exists the run stops at `createCollection`. -/
theorem mongoInit_of_exists (sh : Shell)
    (h : (sh.server.findCollection "archetype" "pokemon").isSome = true) :
    mongoInit sh =
      ⟨⟨"archetype", sh.server, sh.events ++ [createCollectionEvent]⟩, some .namespaceExists⟩ := by
  rw [mongoInit_eq, createCollection_pokemon]
  cases hf : sh.server.findCollection "archetype" "pokemon" with
  | none => simp [hf] at h
  | some c => rfl

/-- When `archetype.pokemon` does not exist the run creates it, and it is there
with the script's validator however the run goes on. -/
theorem mongoInit_creates (sh : Shell)
    (h : sh.server.findCollection "archetype" "pokemon" = none) :
    (mongoInit sh).shell.server.findCollection "archetype" "pokemon" = some pokemonCollection := by
  have h1 : Server.findCollection "archetype" "pokemon"
      ⟨sh.server.collections ++ [pokemonCollection], sh.server.nextOid⟩
      = some pokemonCollection :=
    find_append_new "archetype" "pokemon" sh.server.collections pokemonCollection (by decide) h
  rw [mongoInit_eq, createCollection_pokemon, h]
  cases h2 : Server.createIndex "archetype" "pokemons" nameIndex
      ⟨sh.server.collections ++ [pokemonCollection], sh.server.nextOid⟩ with
  | error e => simp only [h2]; exact h1
  | ok s2 =>
    simp only [h2]
    rw [createIndex_find_other "archetype" "pokemon" "archetype" "pokemons" nameIndex _ s2
      (by decide) h2]
    exact h1

/-- After a run `archetype.pokemon` exists, whatever the state before. -/
theorem mongoInit_exists_after (sh : Shell) :
    ((mongoInit sh).shell.server.findCollection "archetype" "pokemon").isSome = true := by
  cases h : sh.server.findCollection "archetype" "pokemon" with
  | none => rw [mongoInit_creates sh h]; rfl
  | some c =>
    rw [mongoInit_of_exists sh (by rw [h]; rfl)]
    show (sh.server.findCollection "archetype" "pokemon").isSome = true
    rw [h]; rfl

theorem fresh_find (sh : Shell) (h : Fresh sh) (name : String) :
    sh.server.collections.find? (Collection.isNamed "archetype" name) = none := by
  rw [List.find?_eq_none]
  intro c hc hn
  exact h c hc ((isNamed_iff _ _ _).1 hn).1

theorem fresh_map (sh : Shell) (h : Fresh sh) (c : Collection) (hc : c.db = "archetype") :
    sh.server.collections.map (fun c' => if c'.isNamed c.db c.name then c else c') =
      sh.server.collections := by
  conv => rhs; rw [← List.map_id sh.server.collections]
  apply List.map_congr_left
  intro x hx
  have : x.isNamed c.db c.name = false := by
    cases hn : x.isNamed c.db c.name with
    | false => rfl
    | true => exact absurd (((isNamed_iff _ _ _).1 hn).1.trans hc) (h x hx)
  simp [this]

/-- The run on a fresh database: both commands succeed, the message is printed,
and the database `archetype` has the two collections `pokemon` and
`pokemons`. -/
theorem mongoInit_fresh (sh : Shell) (h : Fresh sh) :
    mongoInit sh =
      ⟨⟨"archetype",
        ⟨sh.server.collections ++ [pokemonCollection, pokemonsCollection], sh.server.nextOid⟩,
        sh.events ++ [createCollectionEvent, createIndexEvent, .output completionMessage]⟩,
        none⟩ := by
  have hf1 := fresh_find sh h "pokemon"
  have hf2 : (sh.server.collections ++ [pokemonCollection]).find?
      (Collection.isNamed "archetype" "pokemons") = none := by
    rw [find_append_other _ _ _ _ (by decide)]
    exact fresh_find sh h "pokemons"
  have hm := fresh_map sh h { Collection.implicit "archetype" "pokemons" with
    indexes := (Collection.implicit "archetype" "pokemons").indexes ++ [nameIndex] } rfl
  have hci : Server.createIndex "archetype" "pokemons" nameIndex
      ⟨sh.server.collections ++ [pokemonCollection], sh.server.nextOid⟩ =
      .ok ⟨sh.server.collections ++ [pokemonCollection, pokemonsCollection],
        sh.server.nextOid⟩ := by
    simp only [Server.createIndex, Server.ensureCollection, Server.findCollection, hf2,
      Option.getD_none, Server.replaceCollection]
    have hnone : (Collection.implicit "archetype" "pokemons").indexes.find?
        (fun i => i.key == nameIndex.key) = none := by decide
    have hdup : (nameIndex.unique &&
        hasDuplicateKey nameIndex (Collection.implicit "archetype" "pokemons").docs) = false := by
      decide
    simp only [hnone, hdup]
    simp only [List.map_append, hm]
    simp [Collection.implicit, Collection.isNamed, pokemonCollection, pokemonsCollection]
  rw [mongoInit_eq, createCollection_pokemon]
  simp only [Server.findCollection, hf1, hci]

theorem lookupField_cons_id (k : String) (x : BsonValue) (doc : Document) (h : k ≠ "_id") :
    lookupField k (("_id", x) :: doc) = lookupField k doc := by
  simp [lookupField, Ne.symm h]

theorem accepts_cons_id (x : BsonValue) (doc : Document) :
    pokemonSchema.accepts (.document (("_id", x) :: doc)) =
      pokemonSchema.accepts (.document doc) := by
  have h1 := accepts_pokemonSchema (("_id", x) :: doc)
  have h2 := accepts_pokemonSchema doc
  rw [lookupField_cons_id "name" x doc (by decide),
    lookupField_cons_id "types" x doc (by decide)] at h1
  cases ha : pokemonSchema.accepts (.document doc) with
  | true => exact h1.2 (h2.1 ha)
  | false =>
    cases hb : pokemonSchema.accepts (.document (("_id", x) :: doc)) with
    | false => rfl
    | true => rw [h2.2 (h1.1 hb)] at ha; cases ha

/-- A document the script's schema does not accept is refused by insertion into
a collection that carries the schema as validator. -/
theorem insertOne_rejected (s : Server) (doc : Document)
    (hs : s.findCollection "archetype" "pokemon" = some pokemonCollection)
    (hd : pokemonSchema.accepts (.document doc) = false) :
    s.insertOne "archetype" "pokemon" doc = .error .documentValidationFailure := by
  unfold Server.insertOne
  cases hid : lookupField "_id" doc with
  | some v => simp [hs, Collection.admits, pokemonCollection, hd]
  | none => simp [hs, Collection.admits, pokemonCollection, accepts_cons_id, hd]

/-- The script's validator rejects a document that the schema does not accept,
on every state in which the script creates the collection. -/
theorem rejected_after_run (sh : Shell) (doc : Document)
    (hnew : sh.server.findCollection "archetype" "pokemon" = none)
    (hd : pokemonSchema.accepts (.document doc) = false) :
    ∃ c, (mongoInit sh).shell.server.findCollection "archetype" "pokemon" = some c ∧
      c.validator = some pokemonSchema ∧ c.admits doc = false ∧
      (mongoInit sh).shell.server.insertOne "archetype" "pokemon" doc =
        .error .documentValidationFailure := by
  refine ⟨pokemonCollection, mongoInit_creates sh hnew, rfl, ?_,
    insertOne_rejected _ doc (mongoInit_creates sh hnew) hd⟩
  simpa [Collection.admits, pokemonCollection] using hd

theorem not_accepts_iff (doc : Document) :
    pokemonSchema.accepts (.document doc) = false ↔
      ¬ ((∃ v, lookupField "name" doc = some v ∧ IsString v) ∧
        (∀ v, lookupField "types" doc = some v → IsStringArray v)) := by
  rw [← accepts_pokemonSchema]
  simp

theorem stdout_append (xs ys : List Event) : stdout (xs ++ ys) = stdout xs ++ stdout ys := by
  simp [stdout, List.filterMap_append]

/-! ## The claims -/

/-- C1: on every state in which the script creates `archetype.pokemon`, the
collection is there after the run with the script's `$jsonSchema` validator,
and the validator rejects every document without a `name` field, whatever its
other fields: such a document is not admitted and its insertion fails with a
validation error. -/
theorem validator_rejects_missing_name (sh : Shell) (doc : Document)
    (hnew : sh.server.findCollection "archetype" "pokemon" = none)
    (hdoc : lookupField "name" doc = none) :
    ∃ c, (mongoInit sh).shell.server.findCollection "archetype" "pokemon" = some c ∧
      c.validator = some pokemonSchema ∧ c.admits doc = false ∧
      (mongoInit sh).shell.server.insertOne "archetype" "pokemon" doc =
        .error .documentValidationFailure := by
  apply rejected_after_run sh doc hnew
  rw [not_accepts_iff]
  rintro ⟨⟨v, hv, _⟩, _⟩
  rw [hdoc] at hv
  cases hv

/-- Witness of C1: a document with `types` and `level` but no `name`, on the
fresh shell. -/
theorem validator_rejects_missing_name_witness :
    freshShell.server.findCollection "archetype" "pokemon" = none ∧
    lookupField "name" [("types", .array [.string "fire"]), ("level", .int 5)] = none ∧
    ∃ c, (mongoInit freshShell).shell.server.findCollection "archetype" "pokemon" = some c ∧
      c.validator = some pokemonSchema ∧
      c.admits [("types", .array [.string "fire"]), ("level", .int 5)] = false ∧
      (mongoInit freshShell).shell.server.insertOne "archetype" "pokemon"
        [("types", .array [.string "fire"]), ("level", .int 5)] =
        .error .documentValidationFailure :=
  ⟨rfl, rfl, validator_rejects_missing_name freshShell _ rfl rfl⟩

/-- C2: on every state in which the script creates `archetype.pokemon`, the
validator of the collection rejects every document in which `name` is present
but is not a string, and every document in which `types` is present but is not
an array whose items are all strings. -/
theorem validator_rejects_mistyped (sh : Shell) (doc : Document)
    (hnew : sh.server.findCollection "archetype" "pokemon" = none)
    (hdoc : (∃ v, lookupField "name" doc = some v ∧ ¬ IsString v) ∨
      (∃ v, lookupField "types" doc = some v ∧ ¬ IsStringArray v)) :
    ∃ c, (mongoInit sh).shell.server.findCollection "archetype" "pokemon" = some c ∧
      c.validator = some pokemonSchema ∧ c.admits doc = false ∧
      (mongoInit sh).shell.server.insertOne "archetype" "pokemon" doc =
        .error .documentValidationFailure := by
  apply rejected_after_run sh doc hnew
  rw [not_accepts_iff]
  rintro ⟨⟨v, hv, hs⟩, ht⟩
  rcases hdoc with ⟨w, hw, hns⟩ | ⟨w, hw, hna⟩
  · rw [hv] at hw
    cases hw
    exact hns hs
  · exact hna (ht w hw)

/-- Witness of C2: a document whose `types` array holds a number, on the fresh
shell. -/
theorem validator_rejects_mistyped_witness :
    freshShell.server.findCollection "archetype" "pokemon" = none ∧
    ((∃ v, lookupField "name"
          [("name", .string "eevee"), ("types", .array [.string "normal", .int 1])] = some v ∧
          ¬ IsString v) ∨
      (∃ v, lookupField "types"
          [("name", .string "eevee"), ("types", .array [.string "normal", .int 1])] = some v ∧
          ¬ IsStringArray v)) ∧
    ∃ c, (mongoInit freshShell).shell.server.findCollection "archetype" "pokemon" = some c ∧
      c.validator = some pokemonSchema ∧
      c.admits [("name", .string "eevee"), ("types", .array [.string "normal", .int 1])] = false ∧
      (mongoInit freshShell).shell.server.insertOne "archetype" "pokemon"
        [("name", .string "eevee"), ("types", .array [.string "normal", .int 1])] =
        .error .documentValidationFailure :=
  have hbad : ¬ IsStringArray (.array [.string "normal", .int 1]) := by
    rintro ⟨es, h, hall⟩
    cases h
    obtain ⟨s, hs⟩ := hall (.int 1) (by simp)
    cases hs
  ⟨rfl, Or.inr ⟨_, rfl, hbad⟩,
    validator_rejects_mistyped freshShell _ rfl (Or.inr ⟨_, rfl, hbad⟩)⟩

/-- C3: on every state in which the script creates `archetype.pokemon`, the
validator of the collection accepts every document that has a string `name`
and whose `types`, if present, is an array of strings. Nothing is asked of the
other fields of the document, and `types` may be missing. -/
theorem validator_accepts_well_typed (sh : Shell) (doc : Document)
    (hnew : sh.server.findCollection "archetype" "pokemon" = none)
    (hname : ∃ v, lookupField "name" doc = some v ∧ IsString v)
    (htypes : ∀ v, lookupField "types" doc = some v → IsStringArray v) :
    ∃ c, (mongoInit sh).shell.server.findCollection "archetype" "pokemon" = some c ∧
      c.validator = some pokemonSchema ∧ c.admits doc = true := by
  refine ⟨pokemonCollection, mongoInit_creates sh hnew, rfl, ?_⟩
  have := (accepts_pokemonSchema doc).2 ⟨hname, htypes⟩
  simpa [Collection.admits, pokemonCollection] using this

/-- Witness of C3: a document with a string `name`, no `types`, and two fields
the schema does not list, on the fresh shell. -/
theorem validator_accepts_well_typed_witness :
    freshShell.server.findCollection "archetype" "pokemon" = none ∧
    (∃ v, lookupField "name"
        [("name", .string "mew"), ("level", .int 5), ("shiny", .bool true)] = some v ∧
        IsString v) ∧
    (∀ v, lookupField "types"
        [("name", .string "mew"), ("level", .int 5), ("shiny", .bool true)] = some v →
        IsStringArray v) ∧
    ∃ c, (mongoInit freshShell).shell.server.findCollection "archetype" "pokemon" = some c ∧
      c.validator = some pokemonSchema ∧
      c.admits [("name", .string "mew"), ("level", .int 5), ("shiny", .bool true)] = true :=
  have hname : ∃ v, lookupField "name"
      [("name", .string "mew"), ("level", .int 5), ("shiny", .bool true)] = some v ∧
      IsString v := ⟨_, rfl, "mew", rfl⟩
  have htypes : ∀ v, lookupField "types"
      [("name", .string "mew"), ("level", .int 5), ("shiny", .bool true)] = some v →
      IsStringArray v := fun v hv => by
    have h0 : lookupField "types"
        [("name", .string "mew"), ("level", .int 5), ("shiny", .bool true)] = none := rfl
    rw [h0] at hv
    cases hv
  ⟨rfl, hname, htypes, validator_accepts_well_typed freshShell _ rfl hname htypes⟩

/-- C4, at the failing input: after the run on the fresh shell the document
`{ name: 'pikachu' }` passes the validator of `archetype.pokemon`, and inserting
it twice into that collection succeeds both times: the collection then holds two
documents with the same `name`. The unique index is on `pokemons`, not on the
collection that carries the validator. -/
theorem same_name_twice_into_pokemon :
    pokemonSchema.accepts (.document pikachu) = true ∧
    ((mongoInit freshShell).shell.server.findCollection "archetype" "pokemon").map
      (fun c => c.indexes) = some [idIndex] ∧
    storedCount "archetype" "pokemon"
      (insertTwice "archetype" "pokemon" pikachu pikachu (mongoInit freshShell).shell.server) =
      .ok 2 := by
  refine ⟨by decide, by decide, rfl⟩

/-- The unique index of the script does what the specification says of it where
it is: in `archetype.pokemons` the second insertion of the same `name` fails
with a duplicate key. -/
theorem same_name_twice_into_pokemons :
    storedCount "archetype" "pokemons"
      (insertTwice "archetype" "pokemons" pikachu pikachu (mongoInit freshShell).shell.server) =
      .error .duplicateKey := rfl

/-- C5, at the failing input: in the run on the fresh shell the collection of
`createCollection` is `pokemon` and the collection of `createIndex` is
`pokemons`; afterwards the database `archetype` has two collections, `pokemon`
with the validator and the `_id` index only, and `pokemons` without validator
and with the unique index on `name`. -/
theorem script_addresses_two_collections :
    (newEvents freshShell (mongoInit freshShell)).map Event.collection =
      [some "pokemon", some "pokemons", none] ∧
    ((mongoInit freshShell).shell.server.collectionsOf "archetype").map Collection.summary =
      [("pokemon", true, [idIndex], 0), ("pokemons", false, [idIndex, nameIndex], 0)] := by
  refine ⟨by decide, by decide⟩

/-- C6, counterexample: the script is run a second time on the shell the first
run on the fresh shell leaves. `createCollection` fails there with the
already-exists error, and the run does not go on: it ends with that error, the
only command it sends is `createCollection`, and it prints nothing. -/
theorem rerun_stops_at_createCollection :
    ((mongoInit freshShell).shell.server.createCollection "archetype" "pokemon"
        (some pokemonSchema)).toBool = false ∧
    (mongoInit (mongoInit freshShell).shell).error = some .namespaceExists ∧
    (newEvents (mongoInit freshShell).shell (mongoInit (mongoInit freshShell).shell)).map
      Event.collection = [some "pokemon"] ∧
    stdout (newEvents (mongoInit freshShell).shell (mongoInit (mongoInit freshShell).shell)) =
      [] := by
  refine ⟨rfl, by decide, by decide, by decide⟩

/-- C6, amended: when `archetype.pokemon` already exists, `createCollection`
raises the already-exists error and the script, which has no handler, ends
there with that error: the only event of the run is the `createCollection`
command, so `createIndex` is not sent and nothing is printed, and the engine
state is unchanged. -/
theorem mongoInit_stops_when_collection_exists (sh : Shell)
    (h : (sh.server.findCollection "archetype" "pokemon").isSome = true) :
    sh.server.createCollection "archetype" "pokemon" (some pokemonSchema) =
      .error .namespaceExists ∧
    (mongoInit sh).error = some .namespaceExists ∧
    (mongoInit sh).shell.events = sh.events ++ [createCollectionEvent] ∧
    stdout (mongoInit sh).shell.events = stdout sh.events ∧
    (mongoInit sh).shell.server = sh.server := by
  rw [mongoInit_of_exists sh h]
  refine ⟨?_, rfl, rfl, ?_, rfl⟩
  · rw [createCollection_pokemon]
    cases hf : sh.server.findCollection "archetype" "pokemon" with
    | none => simp [hf] at h
    | some c => rfl
  · show stdout (sh.events ++ [createCollectionEvent]) = stdout sh.events
    rw [stdout_append]
    simp [stdout, createCollectionEvent]

/-- Witness of C6 as amended: the shell the first run on the fresh shell
leaves. -/
theorem mongoInit_stops_when_collection_exists_witness :
    ((mongoInit freshShell).shell.server.findCollection "archetype" "pokemon").isSome = true ∧
    ((mongoInit freshShell).shell.server.createCollection "archetype" "pokemon"
        (some pokemonSchema) = .error .namespaceExists ∧
      (mongoInit (mongoInit freshShell).shell).error = some .namespaceExists ∧
      (mongoInit (mongoInit freshShell).shell).shell.events =
        (mongoInit freshShell).shell.events ++ [createCollectionEvent] ∧
      stdout (mongoInit (mongoInit freshShell).shell).shell.events =
        stdout (mongoInit freshShell).shell.events ∧
      (mongoInit (mongoInit freshShell).shell).shell.server =
        (mongoInit freshShell).shell.server) :=
  ⟨rfl, mongoInit_stops_when_collection_exists (mongoInit freshShell).shell rfl⟩

/-- C7: for every state of the engine, fresh or not, the state after running
the script twice in sequence is the state after running it once: the same
collections with the same validators, indexes and documents. The second run
finds `archetype.pokemon` and stops at `createCollection`, which changes
nothing. -/
theorem mongoInit_idempotent (sh : Shell) :
    schemaState (mongoInit (mongoInit sh).shell).shell.server =
      schemaState (mongoInit sh).shell.server ∧
    (mongoInit (mongoInit sh).shell).shell.server = (mongoInit sh).shell.server := by
  rw [mongoInit_of_exists (mongoInit sh).shell (mongoInit_exists_after sh)]
  exact ⟨rfl, rfl⟩

/-- C8: on a fresh database both administrative commands succeed and the run
ends normally; its events are, in this order, the `createCollection` command,
the `createIndex` command and the output of the completion message; so the run
adds exactly one line to standard output, after both commands. -/
theorem completion_message_after_both_commands (sh : Shell) (h : Fresh sh) :
    (mongoInit sh).error = none ∧
    (mongoInit sh).shell.events =
      sh.events ++ [createCollectionEvent, createIndexEvent,
        .output "MongoDB initialization completed for Archetype database"] ∧
    stdout (mongoInit sh).shell.events =
      stdout sh.events ++ ["MongoDB initialization completed for Archetype database"] := by
  rw [mongoInit_fresh sh h]
  refine ⟨rfl, rfl, ?_⟩
  show stdout (sh.events ++ _) = _
  rw [stdout_append]
  rfl

/-- Witness of C8: the fresh shell. -/
theorem completion_message_after_both_commands_witness :
    Fresh freshShell ∧
    (mongoInit freshShell).error = none ∧
    (mongoInit freshShell).shell.events =
      freshShell.events ++ [createCollectionEvent, createIndexEvent,
        .output "MongoDB initialization completed for Archetype database"] ∧
    stdout (mongoInit freshShell).shell.events =
      stdout freshShell.events ++ ["MongoDB initialization completed for Archetype database"] :=
  have hf : Fresh freshShell := fun c hc => by cases hc
  ⟨hf, completion_message_after_both_commands freshShell hf⟩

/-- C9: every field name in the `required` array of the script's schema is a
key of its `properties` object: `required` is `name`, and the keys of
`properties` are `name` and `types`. -/
theorem required_subset_properties :
    pokemonSchema.required ⊆ pokemonSchema.properties.map Prod.fst ∧
    pokemonSchema.required = ["name"] ∧
    pokemonSchema.properties.map Prod.fst = ["name", "types"] := by
  refine ⟨?_, rfl, rfl⟩
  intro k hk
  have : k = "name" := by simpa [pokemonSchema, JsonSchema.required] using hk
  subst this
  decide

/-- C10: whatever database `db` denotes when the script starts and whatever the
engine holds, every command of the run is sent to the database `archetype`,
and the collections of every other database are after the run what they were
before it. -/
theorem mongoInit_touches_archetype_only (sh : Shell) (n : String) (h : n ≠ "archetype") :
    (mongoInit sh).shell.server.collectionsOf n = sh.server.collectionsOf n ∧
    ∃ new, (mongoInit sh).shell.events = sh.events ++ new ∧
      ∀ e ∈ new, ∀ db, e.target = some db → db = "archetype" := by
  have hne : "archetype" ≠ n := Ne.symm h
  have htarget : ∀ e ∈ [createCollectionEvent, createIndexEvent,
      Event.output completionMessage], ∀ db, e.target = some db → db = "archetype" := by
    intro e he db hdb
    simp only [List.mem_cons, List.mem_singleton, List.not_mem_nil, or_false] at he
    rcases he with rfl | rfl | rfl
    · cases hdb; rfl
    · cases hdb; rfl
    · cases hdb
  rw [mongoInit_eq]
  cases h1 : sh.server.createCollection "archetype" "pokemon" (some pokemonSchema) with
  | error e =>
    refine ⟨rfl, [createCollectionEvent], rfl, fun e he => htarget e ?_⟩
    simp only [List.mem_singleton] at he
    simp [he]
  | ok s1 =>
    have hf1 := createCollection_frame n "archetype" "pokemon" _ sh.server s1 hne h1
    cases h2 : s1.createIndex "archetype" "pokemons" nameIndex with
    | error e =>
      simp only [h2]
      refine ⟨hf1, [createCollectionEvent, createIndexEvent], rfl, fun e he => htarget e ?_⟩
      simp only [List.mem_cons, List.mem_singleton, List.not_mem_nil, or_false] at he
      rcases he with rfl | rfl <;> simp
    | ok s2 =>
      have hf2 := createIndex_frame n "archetype" "pokemons" nameIndex s1 s2 hne h2
      simp only [h2]
      exact ⟨hf2.trans hf1, _, rfl, htarget⟩

/-- Witness of C10: a shell that starts on the database `admin`, which holds a
collection of its own. -/
theorem mongoInit_touches_archetype_only_witness :
    "admin" ≠ "archetype" ∧
    ((mongoInit adminShell).shell.server.collectionsOf "admin" =
        adminShell.server.collectionsOf "admin" ∧
      ∃ new, (mongoInit adminShell).shell.events = adminShell.events ++ new ∧
        ∀ e ∈ new, ∀ db, e.target = some db → db = "archetype") :=
  ⟨by decide, mongoInit_touches_archetype_only adminShell "admin" (by decide)⟩

/-! ## Further facts about the run on a fresh database -/

/-- After the run on a fresh database the command `createIndex` of the script
is a no-op: the index it asks for is there. -/
theorem createIndex_again_is_noop (sh : Shell) (h : Fresh sh) :
    (mongoInit sh).shell.server.createIndex "archetype" "pokemons" nameIndex =
      .ok (mongoInit sh).shell.server := by
  rw [mongoInit_fresh sh h]
  have hfind : Server.findCollection "archetype" "pokemons"
      ⟨sh.server.collections ++ [pokemonCollection, pokemonsCollection], sh.server.nextOid⟩ =
      some pokemonsCollection := by
    have h1 : (sh.server.collections ++ [pokemonCollection]).find?
        (Collection.isNamed "archetype" "pokemons") = none := by
      rw [find_append_other _ _ _ _ (by decide)]
      exact fresh_find sh h "pokemons"
    have := find_append_new "archetype" "pokemons" (sh.server.collections ++ [pokemonCollection])
      pokemonsCollection (by decide) h1
    simpa [Server.findCollection] using this
  simp only [Server.createIndex, Server.ensureCollection, hfind, Option.getD_some]
  have hix : pokemonsCollection.indexes.find? (fun i => i.key == nameIndex.key) =
      some nameIndex := by decide
  simp [hix]

end MongoInit
